import Mathlib

/-!
Verification development for the Schema-1 conversion tools
(`scripts/schema1_to_schema2.py` and `scripts/schema1_to_zip.py`).

The Python sources are shallowly embedded below: each Python function is
translated into an executable Lean definition of the same name (camel-cased
where needed), stateful parser callbacks become explicit state-passing step
functions, and the `try/except` fallback around the HTML parse becomes a
branch on an `Except` value.  Block ids, produced by `uuid.uuid4()` in the
source, are modelled by an explicit id supply `gen : Nat → String`.
-/

namespace Raptor

/-- Python whitespace: the characters stripped by `str.strip()` and matched
by the regex class `\s` (ASCII range, which covers all inputs of interest). -/
def isPySpace (c : Char) : Bool :=
  c == ' ' || c == '\t' || c == '\n' || c == '\r' || c == '\x0b' || c == '\x0c'

/-- Python `str.strip()` with no arguments. -/
def pyStrip (s : String) : String :=
  (((s.toList.dropWhile isPySpace).reverse.dropWhile isPySpace).reverse).asString

/-- Python `str.lower()` (ASCII case mapping, which covers all inputs of interest). -/
def pyLower (s : String) : String :=
  (s.toList.map Char.toLower).asString

/-- Python `str.endswith('.md')`. -/
def endsWithMd (s : String) : Bool :=
  match s.toList.reverse with
  | 'd' :: 'm' :: '.' :: _ => true
  | _ => false

/-- Python `s[:-3]` (empty result when the string is shorter than 3). -/
def dropLast3 (s : String) : String :=
  s.toList.dropLast.dropLast.dropLast.asString

/-- Python `str.replace(' ', '_')` as used on the project title. -/
def replaceSpacesWithUnderscores (s : String) : String :=
  (s.toList.map (fun c => if c == ' ' then '_' else c)).asString

/-- `dict(attrs).get(key, dflt)`: when a key is bound several times the last
binding wins, as in a Python dict built from a pair list. -/
def dictGet (attrs : List (String × String)) (key dflt : String) : String :=
  match attrs.reverse.find? (fun p => p.1 == key) with
  | Option.some p => p.2
  | Option.none => dflt

/-- A markup event, as delivered by `html.parser.HTMLParser` to the
`handle_starttag` / `handle_endtag` / `handle_data` callbacks. -/
inductive Event where
  | startTag (tag : String) (attrs : List (String × String))
  | endTag (tag : String)
  | textData (data : String)
deriving DecidableEq, Repr

/-- Characters that terminate a tag name inside `<...>`. -/
def isNameEnd (c : Char) : Bool := isPySpace c || c == '/'

/-- Attribute parsing inside a start tag, as `html.parser` does for
`name="value"`, `name='value'`, `name=value` and bare `name` forms.
The fuel argument only serves termination; it is chosen large enough
at every call site. -/
def parseAttrs : Nat → List Char → List (String × String)
  | 0, _ => []
  | _ + 1, [] => []
  | fuel + 1, cs0 =>
    let cs := cs0.dropWhile (fun c => isPySpace c || c == '/')
    let nameCs := cs.takeWhile (fun c => !isPySpace c && c != '=' && c != '/')
    if nameCs.isEmpty then []
    else
      let aname := (nameCs.map Char.toLower).asString
      let rest := (cs.drop nameCs.length).dropWhile isPySpace
      match rest with
      | '=' :: r0 =>
        let r := r0.dropWhile isPySpace
        match r with
        | '"' :: r2 =>
          let v := r2.takeWhile (fun c => c != '"')
          (aname, v.asString) :: parseAttrs fuel (r2.drop (v.length + 1))
        | '\'' :: r2 =>
          let v := r2.takeWhile (fun c => c != '\'')
          (aname, v.asString) :: parseAttrs fuel (r2.drop (v.length + 1))
        | _ =>
          let v := r.takeWhile (fun c => !isPySpace c)
          (aname, v.asString) :: parseAttrs fuel (r.drop v.length)
      | _ => (aname, "") :: parseAttrs fuel rest

/-- Event stream of `html.parser.HTMLParser.feed` (without a final `close()`,
matching both scripts) on the supported markup subset: `<name attrs>`,
`</name>`, self-closing `<name/>` (which triggers both callbacks via the
default `handle_startendtag`), and text.  A trailing unterminated tag stays
in the parser's buffer and produces no event; a `<` that does not open a
tag is delivered as text.  The fuel argument only serves termination. -/
def tokenizeAux : Nat → List Char → List Event
  | 0, _ => []
  | _ + 1, [] => []
  | fuel + 1, '<' :: rest =>
    match rest with
    | [] => []
    | c :: _ =>
      if c == '/' then
        let inner := (rest.drop 1).takeWhile (fun d => d != '>')
        if inner.length < (rest.drop 1).length then
          let nm := ((inner.dropWhile isPySpace).takeWhile (fun d => !isNameEnd d)).map Char.toLower
          let restAfter := (rest.drop 1).drop (inner.length + 1)
          if nm.isEmpty then tokenizeAux fuel restAfter
          else Event.endTag nm.asString :: tokenizeAux fuel restAfter
        else []
      else if c.isAlpha then
        let inner := rest.takeWhile (fun d => d != '>')
        if inner.length < rest.length then
          let selfClose := inner.getLast? == Option.some '/'
          let body := if selfClose then inner.dropLast else inner
          let nameCs := body.takeWhile (fun d => !isNameEnd d)
          let tag := (nameCs.map Char.toLower).asString
          let attrs := parseAttrs (body.length + 1) (body.drop nameCs.length)
          let restAfter := rest.drop (inner.length + 1)
          if selfClose then
            Event.startTag tag attrs :: Event.endTag tag :: tokenizeAux fuel restAfter
          else
            Event.startTag tag attrs :: tokenizeAux fuel restAfter
        else []
      else
        Event.textData "<" :: tokenizeAux fuel rest
  | fuel + 1, c :: rest =>
    let chunk := c :: rest.takeWhile (fun d => d != '<')
    Event.textData chunk.asString :: tokenizeAux fuel (rest.dropWhile (fun d => d != '<'))

/-- Tokenize a whole input string. -/
def tokenize (s : String) : List Event :=
  tokenizeAux (s.toList.length + 1) s.toList

/-- The result of feeding the input to the parser.  Both scripts wrap the
feed in `try/except`; `html.parser` is a non-raising, permissive parser, so
the success branch is always taken, but the conversion functions below still
branch on this value, mirroring the source's exception handler. -/
def tokenizeResult (s : String) : Except Unit (List Event) :=
  Except.ok (tokenize s)

/-- `re.sub(r'<[^>]+>', '', html)`: drop every `<`...`>` group with at least
one non-`>` character inside, scanning left to right without overlap.
The fuel argument only serves termination. -/
def stripTagsAux : Nat → List Char → List Char
  | 0, cs => cs
  | _ + 1, [] => []
  | fuel + 1, '<' :: rest =>
    let before := rest.takeWhile (fun d => d != '>')
    if before.length == rest.length then '<' :: rest
    else if before.isEmpty then '<' :: stripTagsAux fuel rest
    else stripTagsAux fuel (rest.drop (before.length + 1))
  | fuel + 1, c :: rest => c :: stripTagsAux fuel rest

/-- Tag-stripping fallback used by both scripts when the parse raises. -/
def stripTags (html : String) : String :=
  (stripTagsAux (html.toList.length + 1) html.toList).asString

/-- The converter's `current_styles` dict.  A boolean field being `false`
(resp. `link` being `none`) models the key being absent from the dict;
`dict.pop(key, None)` therefore becomes setting the field back to its
absent value. -/
@[ext] structure Styles where
  bold : Bool
  italic : Bool
  underline : Bool
  link : Option String
deriving DecidableEq, Repr

/-- The empty style dict `{}`. -/
def noStyles : Styles := ⟨false, false, false, Option.none⟩

/-- A text node `{"type": "text", "text": ..., "styles": ...}` (the constant
`"type"` key is left implicit). -/
@[ext] structure TextNode where
  text : String
  styles : Styles
deriving DecidableEq, Repr

/-- The `props` dict of a block. -/
@[ext] structure BlockProps where
  textColor : String
  backgroundColor : String
  textAlignment : String
  level : Option Nat
deriving DecidableEq, Repr

def defaultProps : BlockProps := ⟨"default", "default", "left", Option.none⟩

/-- A BlockNote block.  The source's `children` key is always the empty list
and is left implicit. -/
@[ext] structure Block where
  id : String
  type : String
  props : BlockProps
  content : List TextNode
deriving DecidableEq, Repr

/-- `HTMLToBlockNoteConverter._create_block`, with the id drawn from the
explicit supply `gen` at index `n` (the source calls `uuid.uuid4()`). -/
def createBlock (gen : Nat → String) (n : Nat) (btype : String) : Block :=
  { id := gen n, type := btype, props := defaultProps, content := [] }

/-- The mutable fields of `HTMLToBlockNoteConverter`, plus the index of the
next fresh id. -/
@[ext] structure BNState where
  blocks : List Block
  currentBlock : Option Block
  currentContent : List TextNode
  currentStyles : Styles
  pendingText : List String
  nextId : Nat
deriving DecidableEq, Repr

/-- The converter's state right after `__init__`. -/
def bnEmpty : BNState := ⟨[], Option.none, [], noStyles, [], 0⟩

/-- `HTMLToBlockNoteConverter._flush_text`. -/
def flushText (st : BNState) : BNState :=
  if st.pendingText = [] then st
  else
    let text := String.join st.pendingText
    { st with
      currentContent :=
        if text = "" then st.currentContent
        else st.currentContent ++ [⟨text, st.currentStyles⟩],
      pendingText := [] }

/-- `HTMLToBlockNoteConverter._flush_block`. -/
def flushBlock (gen : Nat → String) (st : BNState) : BNState :=
  let st1 := flushText st
  if st1.currentContent = [] then st1
  else
    { st1 with
      blocks := st1.blocks ++
        [{ createBlock gen st1.nextId "paragraph" with content := st1.currentContent }],
      currentContent := [],
      nextId := st1.nextId + 1 }

/-- `tag in ('h1','h2','h3','h4','h5','h6')`. -/
def isHeading (t : String) : Bool :=
  t == "h1" || t == "h2" || t == "h3" || t == "h4" || t == "h5" || t == "h6"

/-- `int(tag[1])` for a heading tag. -/
def headingLevel (tag : String) : Nat :=
  match tag.toList with
  | _ :: c :: _ => c.toNat - '0'.toNat
  | _ => 0

/-- `HTMLToBlockNoteConverter.handle_starttag`. -/
def bnStart (gen : Nat → String) (tag0 : String) (attrs : List (String × String))
    (st : BNState) : BNState :=
  let tag := pyLower tag0
  if tag == "p" then flushBlock gen st
  else if tag == "br" then flushBlock gen st
  else if tag == "strong" || tag == "b" then
    let st1 := flushText st
    { st1 with currentStyles := { st1.currentStyles with bold := true } }
  else if tag == "em" || tag == "i" then
    let st1 := flushText st
    { st1 with currentStyles := { st1.currentStyles with italic := true } }
  else if tag == "u" then
    let st1 := flushText st
    { st1 with currentStyles := { st1.currentStyles with underline := true } }
  else if isHeading tag then
    let st1 := flushBlock gen st
    { st1 with
      currentBlock := Option.some
        { createBlock gen st1.nextId "heading" with
          props := { defaultProps with level := Option.some (headingLevel tag) } },
      nextId := st1.nextId + 1 }
  else if tag == "a" then
    let st1 := flushText st
    { st1 with currentStyles :=
        { st1.currentStyles with link := Option.some (dictGet attrs "href" "") } }
  else st

/-- `HTMLToBlockNoteConverter.handle_endtag`. -/
def bnEnd (gen : Nat → String) (tag0 : String) (st : BNState) : BNState :=
  let tag := pyLower tag0
  if tag == "p" then flushBlock gen st
  else if tag == "strong" || tag == "b" then
    let st1 := flushText st
    { st1 with currentStyles := { st1.currentStyles with bold := false } }
  else if tag == "em" || tag == "i" then
    let st1 := flushText st
    { st1 with currentStyles := { st1.currentStyles with italic := false } }
  else if tag == "u" then
    let st1 := flushText st
    { st1 with currentStyles := { st1.currentStyles with underline := false } }
  else if isHeading tag then
    let st1 := flushText st
    match st1.currentBlock with
    | Option.some b =>
      { st1 with
        blocks := st1.blocks ++ [{ b with content := st1.currentContent }],
        currentBlock := Option.none,
        currentContent := [] }
    | Option.none => st1
  else if tag == "a" then
    let st1 := flushText st
    { st1 with currentStyles := { st1.currentStyles with link := Option.none } }
  else st

/-- `HTMLToBlockNoteConverter.handle_data`. -/
def bnData (data : String) (st : BNState) : BNState :=
  { st with pendingText := st.pendingText ++ [data] }

/-- One parser event dispatched to the converter's callbacks. -/
def bnStep (gen : Nat → String) (st : BNState) : Event → BNState
  | Event.startTag t a => bnStart gen t a st
  | Event.endTag t => bnEnd gen t st
  | Event.textData d => bnData d st

/-- Feeding a whole event stream to the converter. -/
def bnRun (gen : Nat → String) (st : BNState) (evs : List Event) : BNState :=
  evs.foldl (bnStep gen) st

/-- `HTMLToBlockNoteConverter.get_blocknote_json`. -/
def getBlocknote (gen : Nat → String) (st : BNState) : List Block :=
  (flushBlock gen st).blocks

/-- The `except` branch of `html_to_blocknote`: one paragraph holding the
tag-stripped, whitespace-trimmed text, or nothing when no text remains. -/
def blocknoteFallback (gen : Nat → String) (html : String) : List Block :=
  let text := stripTags html
  if pyStrip text ≠ "" then
    [{ id := gen 0, type := "paragraph", props := defaultProps,
       content := [⟨pyStrip text, noStyles⟩] }]
  else []

/-- `html_to_blocknote`. -/
def html_to_blocknote (gen : Nat → String) (html : String) : List Block :=
  if html = "" then []
  else
    match tokenizeResult html with
    | Except.ok evs =>
      (getBlocknote gen (bnRun gen bnEmpty evs)).filter (fun b => !b.content.isEmpty)
    | Except.error _ => blocknoteFallback gen html

/-- Python `str.split()` with no arguments: maximal runs of non-whitespace.
The fuel argument only serves termination. -/
def splitWS : Nat → List Char → List String
  | 0, _ => []
  | _ + 1, [] => []
  | fuel + 1, cs =>
    let cs1 := cs.dropWhile isPySpace
    if cs1.isEmpty then []
    else
      let w := cs1.takeWhile (fun c => !isPySpace c)
      w.asString :: splitWS fuel (cs1.drop w.length)

/-- `count_words`. -/
def count_words (blocks : List Block) : Nat :=
  let parts := blocks.foldr (fun b acc => b.content.map TextNode.text ++ acc) []
  let fullText := String.intercalate " " parts
  (splitWS (fullText.toList.length + 1) fullText.toList).length

/-- One element of a natural-sort key: `(0, part.lower())` for a text part,
`(1, int(part))` for a digit part. -/
inductive KeyPart where
  | textKey (s : String)
  | numKey (n : Nat)
deriving DecidableEq, Repr

/-- `int(part)` for a run of decimal digits. -/
def digitsToNat (cs : List Char) : Nat :=
  cs.foldl (fun n c => n * 10 + (c.toNat - '0'.toNat)) 0

/-- Maximal runs of digits / non-digits, the non-empty pieces of
`re.split(r'(\d+)', text)`.  The fuel argument only serves termination. -/
def splitDigitRuns : Nat → List Char → List (List Char)
  | 0, _ => []
  | _ + 1, [] => []
  | fuel + 1, c :: rest =>
    let run := c :: rest.takeWhile (fun d => d.isDigit == c.isDigit)
    run :: splitDigitRuns fuel (rest.drop (run.length - 1))

/-- `natural_sort_key`. -/
def natural_sort_key (text : String) : List KeyPart :=
  (splitDigitRuns (text.toList.length + 1) text.toList).map (fun run =>
    if run.all Char.isDigit && !run.isEmpty then KeyPart.numKey (digitsToNat run)
    else KeyPart.textKey (pyLower run.asString))

/-- Python `<` on strings: lexicographic comparison by code point. -/
def charListLT : List Char → List Char → Bool
  | [], [] => false
  | [], _ :: _ => true
  | _ :: _, [] => false
  | c :: cs, d :: ds =>
    if c < d then true
    else if d < c then false
    else charListLT cs ds

/-- Python `<` on strings. -/
def strLTb (a b : String) : Bool := charListLT a.toList b.toList

/-- Python `<` on key elements: `(0, _) < (1, _)`, strings lexicographically,
numbers numerically. -/
def keyPartLTb : KeyPart → KeyPart → Bool
  | KeyPart.textKey _, KeyPart.numKey _ => true
  | KeyPart.numKey _, KeyPart.textKey _ => false
  | KeyPart.textKey a, KeyPart.textKey b => strLTb a b
  | KeyPart.numKey a, KeyPart.numKey b => decide (a < b)

/-- Python `<=` on key lists (lexicographic, shorter list first on a tie). -/
def keyListLEb : List KeyPart → List KeyPart → Bool
  | [], _ => true
  | _ :: _, [] => false
  | a :: as, b :: bs =>
    if keyPartLTb a b then true
    else if keyPartLTb b a then false
    else keyListLEb as bs

/-- Stable insert: `x` goes after every already-placed element `y` with
`le y x`. -/
def insertStable (le : α → α → Bool) (x : α) : List α → List α
  | [] => [x]
  | y :: ys => if le y x then y :: insertStable le x ys else x :: y :: ys

/-- A stable ascending sort.  Python's `list.sort` / `sorted` are stable
sorts, and any two stable sorts of the same total preorder agree, so this
models them exactly. -/
def stableSort (le : α → α → Bool) (l : List α) : List α :=
  l.foldl (fun acc x => insertStable le x acc) []

/-- Python `\w` (ASCII range, which covers all inputs of interest). -/
def isWordChar (c : Char) : Bool := c.isAlphanum || c == '_'

/-- Replace each maximal run of characters satisfying `p` by the single
character `r`.  The fuel argument only serves termination. -/
def collapseRunsTo (p : Char → Bool) (r : Char) : Nat → List Char → List Char
  | 0, cs => cs
  | _ + 1, [] => []
  | fuel + 1, c :: rest =>
    if p c then r :: collapseRunsTo p r fuel (rest.dropWhile p)
    else c :: collapseRunsTo p r fuel rest

/-- Python `str.strip(t)` for a single character. -/
def stripCharEnds (t : Char) (cs : List Char) : List Char :=
  ((cs.dropWhile (fun c => c == t)).reverse.dropWhile (fun c => c == t)).reverse

/-- `slugify_folder_name` (schema2 script) and `slugify_folder` (zip script),
which are textually identical in the two sources. -/
def slugify_folder_name (title : String) : String :=
  let s := pyLower (pyStrip title)
  let s1 := s.toList.filter (fun c => isWordChar c || isPySpace c || c == '-')
  let s2 := collapseRunsTo isPySpace '-' (s1.length + 1) s1
  let s3 := collapseRunsTo (fun c => c == '-') '-' (s2.length + 1) s2
  (stripCharEnds '-' s3).asString

/-- `slugify_folder` from the zip script (same code as `slugify_folder_name`). -/
def slugify_folder (title : String) : String := slugify_folder_name title

/-- `slugify_filename` from the zip script. -/
def slugify_filename (title : String) : String :=
  let f0 := pyStrip title
  let f1 := if endsWithMd (pyLower f0) then dropLast3 f0 else f0
  let f2 := f1.toList.filter (fun c => isWordChar c || isPySpace c || c == '-')
  let f3 := collapseRunsTo isPySpace '_' (f2.length + 1) f2
  f3.asString ++ ".md"

/-- A Schema 1 document record; `Option.none` models an absent key. -/
@[ext] structure S1Document where
  title : Option String
  content : Option String
  status : Option String
  summary : Option String
deriving DecidableEq, Repr

/-- A Schema 1 folder record. -/
@[ext] structure S1Folder where
  id : Option String
  title : Option String
  sort : Option Int
  status : Option String
  documentIds : List String
deriving DecidableEq, Repr

/-- The `trash` record: two id lists read into Python sets. -/
@[ext] structure TrashSpec where
  documentIds : List String
  folderIds : List String
deriving DecidableEq, Repr

/-- The top-level Schema 1 input. -/
@[ext] structure S1Data where
  title : Option String
  documentsById : List (String × S1Document)
  folders : List S1Folder
  trash : TrashSpec
deriving DecidableEq, Repr

/-- `docs_by_id.get(doc_id)` (dict keys are unique, so first match). -/
def lookupDoc (docsById : List (String × S1Document)) (docId : String) :
    Option S1Document :=
  match docsById.find? (fun p => p.1 == docId) with
  | Option.some p => Option.some p.2
  | Option.none => Option.none

/-- `status not in (None, 'active')` negated: the entity survives the status
filter. -/
def statusActive (st : Option String) : Bool :=
  match st with
  | Option.none => true
  | Option.some s => s == "active"

/-- An output document record.  Fields that are constant `None` in the
source (`label_color`, `card_color`, `icon`, `notes`, `label`,
`target_word_count`, `keywords`) are omitted; `content` holds the block list
that the source stores as a JSON-encoded string. -/
@[ext] structure S2Document where
  dtype : String
  title : String
  content : List Block
  synopsis : Option String
  status : String
  order : Nat
  word_count : Nat
deriving DecidableEq, Repr

/-- `convert_document`. -/
def convert_document (gen : Nat → String) (doc : S1Document) (order : Nat) :
    S2Document :=
  let blocknoteContent := html_to_blocknote gen (doc.content.getD "")
  let wc := count_words blocknoteContent
  let status0 := doc.status.getD "active"
  let status1 := if status0 = "active" then "draft" else status0
  let title0 := doc.title.getD "Untitled"
  let title1 := if endsWithMd (pyLower title0) then dropLast3 title0 else title0
  { dtype := "manuscript",
    title := title1,
    content := blocknoteContent,
    synopsis :=
      match doc.summary with
      | Option.some s => if s ≠ "" then Option.some s else Option.none
      | Option.none => Option.none,
    status := status1,
    order := order,
    word_count := wc }

/-- An output folder record.  Constant fields of the source record
(`description`, `parent_id`, `label_color`, `icon` — all `None`) are
omitted. -/
@[ext] structure S2Folder where
  name : String
  ftype : String
  order : Nat
  is_default : Bool
  documents : List S2Document
deriving DecidableEq, Repr

/-- The natural-sort comparator on converted documents, as passed to
`documents.sort(key=lambda d: natural_sort_key(d.get('title', '')))`. -/
def docTitleLE (a b : S2Document) : Bool :=
  keyListLEb (natural_sort_key a.title) (natural_sort_key b.title)

/-- `convert_folder`. -/
def convert_folder (gen : Nat → String) (folder : S1Folder)
    (docsById : List (String × S1Document)) (trashDocIds : List String)
    (order : Nat) : Option S2Folder :=
  let documents := folder.documentIds.filterMap (fun docId =>
    if trashDocIds.contains docId then Option.none
    else
      match lookupDoc docsById docId with
      | Option.none => Option.none
      | Option.some doc =>
        if statusActive doc.status then Option.some (convert_document gen doc 0)
        else Option.none)
  if documents = [] then Option.none
  else
    let sortedDocs := stableSort docTitleLE documents
    let numbered := sortedDocs.enum.map (fun p => { p.2 with order := p.1 })
    Option.some
      { name := slugify_folder_name (folder.title.getD "untitled"),
        ftype := "manuscript",
        order := order,
        is_default := false,
        documents := numbered }

/-- The output project record.  Constant `None` fields of the source record
(`author`, `author_pen_name`, `description`, `genre`, `story_hook`,
`story_pitch`) are omitted. -/
@[ext] structure S2Project where
  title : String
  number_of_chapters : Option Nat
  status : String
  folders : List S2Folder
deriving DecidableEq, Repr

/-- The body of the folder loop in `convert_schema1_to_schema2`: the
accumulator carries the converted folders and the running `folder_order`. -/
def s2FolderStep (gen : Nat → String) (docsById : List (String × S1Document))
    (trashDocIds trashFolderIds : List String) (acc : List S2Folder × Nat)
    (folder : S1Folder) : List S2Folder × Nat :=
  if trashFolderIds.contains (folder.id.getD "") then acc
  else if !statusActive folder.status then acc
  else
    match convert_folder gen folder docsById trashDocIds acc.2 with
    | Option.none => acc
    | Option.some cf => (acc.1 ++ [cf], acc.2 + 1)

/-- `convert_schema1_to_schema2`. -/
def convert_schema1_to_schema2 (gen : Nat → String) (data : S1Data) : S2Project :=
  let sortedFolders :=
    stableSort (fun a b => decide ((a.sort.getD 0) ≤ (b.sort.getD 0))) data.folders
  let convertedFolders :=
    (sortedFolders.foldl
      (s2FolderStep gen data.documentsById data.trash.documentIds data.trash.folderIds)
      ([], 0)).1
  let title := replaceSpacesWithUnderscores (data.title.getD "Untitled")
  let totalDocs := (convertedFolders.map (fun f => f.documents.length)).sum
  { title := title,
    number_of_chapters := if totalDocs > 0 then Option.some totalDocs else Option.none,
    status := "draft",
    folders := convertedFolders }

/-- The mutable fields of `HTMLToMarkdownConverter`.  `current_text` only
ever holds `('link', href)` pairs pushed by `<a>` start tags. -/
@[ext] structure MDState where
  result : List String
  currentText : List (String × String)
  inList : Bool
  listType : Option String
  listItemCount : Nat
deriving DecidableEq, Repr

/-- The markdown converter's state right after `__init__`. -/
def mdEmpty : MDState := ⟨[], [], false, Option.none, 0⟩

/-- `HTMLToMarkdownConverter.handle_starttag`. -/
def mdStart (tag0 : String) (attrs : List (String × String)) (st : MDState) :
    MDState :=
  let tag := pyLower tag0
  if tag == "p" then st
  else if tag == "br" then { st with result := st.result ++ ["\n\n"] }
  else if tag == "strong" || tag == "b" then { st with result := st.result ++ ["**"] }
  else if tag == "em" || tag == "i" then { st with result := st.result ++ ["*"] }
  else if tag == "u" then st
  else if isHeading tag then
    { st with result :=
        st.result ++ [(List.replicate (headingLevel tag) '#').asString ++ " "] }
  else if tag == "a" then
    { st with
      result := st.result ++ ["["],
      currentText := st.currentText ++ [("link", dictGet attrs "href" "")] }
  else if tag == "ul" then
    { st with inList := true, listType := Option.some "ul" }
  else if tag == "ol" then
    { st with inList := true, listType := Option.some "ol", listItemCount := 0 }
  else if tag == "li" then
    if st.listType == Option.some "ul" then { st with result := st.result ++ ["- "] }
    else
      { st with
        listItemCount := st.listItemCount + 1,
        result := st.result ++ [toString (st.listItemCount + 1) ++ ". "] }
  else if tag == "blockquote" then { st with result := st.result ++ ["> "] }
  else if tag == "code" then { st with result := st.result ++ ["`"] }
  else if tag == "pre" then { st with result := st.result ++ ["```\n"] }
  else st

/-- `HTMLToMarkdownConverter.handle_endtag`. -/
def mdEnd (tag0 : String) (st : MDState) : MDState :=
  let tag := pyLower tag0
  if tag == "p" then { st with result := st.result ++ ["\n\n"] }
  else if tag == "strong" || tag == "b" then { st with result := st.result ++ ["**"] }
  else if tag == "em" || tag == "i" then { st with result := st.result ++ ["*"] }
  else if isHeading tag then { st with result := st.result ++ ["\n\n"] }
  else if tag == "a" then
    match st.currentText.getLast? with
    | Option.some p =>
      if p.1 == "link" then
        { st with
          currentText := st.currentText.dropLast,
          result := st.result ++ ["](" ++ p.2 ++ ")"] }
      else st
    | Option.none => st
  else if tag == "ul" || tag == "ol" then
    { st with inList := false, listType := Option.none, result := st.result ++ ["\n"] }
  else if tag == "li" then { st with result := st.result ++ ["\n"] }
  else if tag == "blockquote" then { st with result := st.result ++ ["\n"] }
  else if tag == "code" then { st with result := st.result ++ ["`"] }
  else if tag == "pre" then { st with result := st.result ++ ["\n```\n"] }
  else st

/-- `HTMLToMarkdownConverter.handle_data`. -/
def mdData (data : String) (st : MDState) : MDState :=
  { st with result := st.result ++ [data] }

/-- One parser event dispatched to the markdown converter's callbacks. -/
def mdStep (st : MDState) : Event → MDState
  | Event.startTag t a => mdStart t a st
  | Event.endTag t => mdEnd t st
  | Event.textData d => mdData d st

/-- Feeding a whole event stream to the markdown converter. -/
def mdRun (st : MDState) (evs : List Event) : MDState :=
  evs.foldl mdStep st

/-- `HTMLToMarkdownConverter.get_markdown`: `''.join(self.result).strip()`. -/
def getMarkdown (st : MDState) : String :=
  pyStrip (String.join st.result)

/-- Emit a newline run of length `n`, collapsed to 2 when `n ≥ 3`. -/
def emitNLs (n : Nat) : List Char :=
  List.replicate (if n ≥ 3 then 2 else n) '\n'

/-- `re.sub(r'\n{3,}', '\n\n', s)` scanning with a pending-newline count. -/
def collapseNLAux : List Char → Nat → List Char
  | [], n => emitNLs n
  | c :: cs, n =>
    if c == '\n' then collapseNLAux cs (n + 1)
    else emitNLs n ++ (c :: collapseNLAux cs 0)

/-- `re.sub(r'\n{3,}', '\n\n', s)`. -/
def collapseNewlines (s : String) : String :=
  (collapseNLAux s.toList 0).asString

/-- `html_to_markdown`. -/
def html_to_markdown (html : String) : String :=
  if html = "" then ""
  else
    match tokenizeResult html with
    | Except.ok evs => collapseNewlines (getMarkdown (mdRun mdEmpty evs))
    | Except.error _ => stripTags html

/-- One entry written into the zip archive: a directory entry (`data = ""`
and a path ending in `/`) or a markdown file. -/
@[ext] structure ZipEntry where
  path : String
  data : String
deriving DecidableEq, Repr

/-- The `stats` dict of `convert_schema1_to_zip`. -/
@[ext] structure ZipStats where
  folders_processed : Nat
  documents_processed : Nat
  documents_skipped_trash : Nat
  documents_skipped_missing : Nat
deriving DecidableEq, Repr

def zipStatsZero : ZipStats := ⟨0, 0, 0, 0⟩

/-- The body of the inner document loop of `convert_schema1_to_zip`:
collect surviving documents of one folder, counting skips. -/
def zipDocStep (docsById : List (String × S1Document)) (trashDocIds : List String)
    (acc : List S1Document × ZipStats) (docId : String) :
    List S1Document × ZipStats :=
  if trashDocIds.contains docId then
    (acc.1, { acc.2 with
      documents_skipped_trash := acc.2.documents_skipped_trash + 1 })
  else
    match lookupDoc docsById docId with
    | Option.none =>
      (acc.1, { acc.2 with
        documents_skipped_missing := acc.2.documents_skipped_missing + 1 })
    | Option.some doc =>
      if statusActive doc.status then (acc.1 ++ [doc], acc.2) else acc

/-- The body of the folder loop of `convert_schema1_to_zip`: the accumulator
carries the zip entries written so far and the running stats. -/
def zipFolderStep (docsById : List (String × S1Document))
    (trashDocIds trashFolderIds : List String) (acc : List ZipEntry × ZipStats)
    (folder : S1Folder) : List ZipEntry × ZipStats :=
  if trashFolderIds.contains (folder.id.getD "") then acc
  else if !statusActive folder.status then acc
  else
    let folderSlug := slugify_folder (folder.title.getD "untitled")
    let r := folder.documentIds.foldl (zipDocStep docsById trashDocIds) ([], acc.2)
    if r.1 = [] then (acc.1, r.2)
    else
      let dirEntry : ZipEntry := { path := folderSlug ++ "/", data := "" }
      let fileEntries := r.1.map (fun doc =>
        { path := folderSlug ++ "/" ++ slugify_filename (doc.title.getD "untitled"),
          data := html_to_markdown (doc.content.getD "") : ZipEntry })
      (acc.1 ++ [dirEntry] ++ fileEntries,
       { r.2 with
         folders_processed := r.2.folders_processed + 1,
         documents_processed := r.2.documents_processed + r.1.length })

/-- `convert_schema1_to_zip`, with the archive modelled as the entry list it
writes (file reading and zip encoding are outside the embedding). -/
def convert_schema1_to_zip (data : S1Data) : List ZipEntry × ZipStats :=
  let sortedFolders :=
    stableSort (fun a b => decide ((a.sort.getD 0) ≤ (b.sort.getD 0))) data.folders
  sortedFolders.foldl
    (zipFolderStep data.documentsById data.trash.documentIds data.trash.folderIds)
    ([], zipStatsZero)

/-- Erase the randomly generated id of one block. -/
def eraseBlockId (b : Block) : Block := { b with id := "" }

/-- Erase all block ids inside a converted document. -/
def eraseDocIds (d : S2Document) : S2Document :=
  { d with content := d.content.map eraseBlockId }

/-- Erase all block ids inside a converted folder. -/
def eraseFolderIds (f : S2Folder) : S2Folder :=
  { f with documents := f.documents.map eraseDocIds }

/-- Erase all block ids inside a converted project. -/
def eraseProjectIds (p : S2Project) : S2Project :=
  { p with folders := p.folders.map eraseFolderIds }

/-- The constant id supply producing the erased id. -/
def zeroGen : Nat → String := fun _ => ""

/-- Erase the ids held in a converter state. -/
def eraseBN (st : BNState) : BNState :=
  { st with
    blocks := st.blocks.map eraseBlockId,
    currentBlock := st.currentBlock.map eraseBlockId }

/-- The content of an optional pending block. -/
def optContent : Option Block → List TextNode
  | Option.some b => b.content
  | Option.none => []

/-- Every text node held anywhere in a converter state: inside finished
blocks, inside the pending heading block, or in the current content list. -/
def bnAllNodes (st : BNState) : List TextNode :=
  (st.blocks.map Block.content).join ++ optContent st.currentBlock ++
    st.currentContent

/-- Events that switch bold back on: `<strong>` or `<b>` start tags. -/
def boldStartEv : Event → Bool
  | Event.startTag t _ => pyLower t == "strong" || pyLower t == "b"
  | _ => false

/-- Example fixture: a document titled `t` with empty HTML content. -/
def chapterDoc (t : String) : S1Document :=
  ⟨Option.some t, Option.some "", Option.none, Option.none⟩

/-- Example fixture: a lookup table with three chapter documents. -/
def chaptersById : List (String × S1Document) :=
  [("d10", chapterDoc "Chapter 10"), ("d2", chapterDoc "Chapter 2"),
   ("d1", chapterDoc "Chapter 1")]

/-- Example fixture: a folder referencing the chapters in the order
`10, 2, 1`. -/
def chaptersFolder : S1Folder :=
  ⟨Option.some "f1", Option.some "Stuff", Option.some 0, Option.none,
   ["d10", "d2", "d1"]⟩

/-! ### Helper lemmas -/

theorem flushText_blocks (st : BNState) : (flushText st).blocks = st.blocks := by
  unfold flushText; split <;> rfl

theorem flushText_currentBlock (st : BNState) :
    (flushText st).currentBlock = st.currentBlock := by
  unfold flushText; split <;> rfl

theorem flushText_currentStyles (st : BNState) :
    (flushText st).currentStyles = st.currentStyles := by
  unfold flushText; split <;> rfl

theorem flushText_nextId (st : BNState) : (flushText st).nextId = st.nextId := by
  unfold flushText; split <;> rfl

theorem flushBlock_currentStyles (gen : Nat → String) (st : BNState) :
    (flushBlock gen st).currentStyles = st.currentStyles := by
  unfold flushBlock
  dsimp only
  split <;> simp [flushText_currentStyles]

theorem flushBlock_currentBlock (gen : Nat → String) (st : BNState) :
    (flushBlock gen st).currentBlock = st.currentBlock := by
  unfold flushBlock
  dsimp only
  split <;> simp [flushText_currentBlock]

theorem bnAllNodes_flushText (st : BNState) (tn : TextNode)
    (h : tn ∈ bnAllNodes (flushText st)) :
    tn ∈ bnAllNodes st ∨ tn.styles = st.currentStyles := by
  unfold flushText at h
  split at h
  · exact Or.inl h
  · unfold bnAllNodes at h ⊢
    dsimp only at h
    split at h
    · exact Or.inl h
    · simp only [List.mem_append, List.mem_singleton] at h ⊢
      rcases h with (h | h) | (h | h)
      · exact Or.inl (Or.inl (Or.inl h))
      · exact Or.inl (Or.inl (Or.inr h))
      · exact Or.inl (Or.inr h)
      · subst h; exact Or.inr rfl

theorem bnAllNodes_flushBlock (gen : Nat → String) (st : BNState) (tn : TextNode)
    (h : tn ∈ bnAllNodes (flushBlock gen st)) :
    tn ∈ bnAllNodes st ∨ tn.styles = st.currentStyles := by
  unfold flushBlock at h
  dsimp only at h
  split at h
  · exact bnAllNodes_flushText st tn h
  · refine bnAllNodes_flushText st tn ?_
    unfold bnAllNodes at h ⊢
    simp only [List.map_append, List.join_append, List.mem_append,
      List.map_cons, List.map_nil, List.join_cons, List.join_nil,
      List.append_nil, List.not_mem_nil, or_false] at h ⊢
    tauto

/-- One step of the block converter, fed a non-bold-opening event from a
state with bold inactive, keeps bold inactive and only creates text nodes
whose style snapshot is not bold. -/
theorem bnStep_bold_inv (gen : Nat → String) (e : Event) (st : BNState)
    (hb : st.currentStyles.bold = false) (he : boldStartEv e = false) :
    (bnStep gen st e).currentStyles.bold = false ∧
      ∀ tn ∈ bnAllNodes (bnStep gen st e),
        tn ∈ bnAllNodes st ∨ tn.styles.bold = false := by
  have Hfb : ∀ tn ∈ bnAllNodes (flushBlock gen st),
      tn ∈ bnAllNodes st ∨ tn.styles.bold = false := fun tn h =>
    (bnAllNodes_flushBlock gen st tn h).imp id (fun hs => by rw [hs]; exact hb)
  have Hft : ∀ tn ∈ bnAllNodes (flushText st),
      tn ∈ bnAllNodes st ∨ tn.styles.bold = false := fun tn h =>
    (bnAllNodes_flushText st tn h).imp id (fun hs => by rw [hs]; exact hb)
  cases e with
  | textData d =>
    exact ⟨hb, fun tn h => Or.inl h⟩
  | startTag t a =>
    have ht : (pyLower t == "strong" || pyLower t == "b") = false := by
      simpa [boldStartEv] using he
    show (bnStart gen t a st).currentStyles.bold = false ∧
      ∀ tn ∈ bnAllNodes (bnStart gen t a st),
        tn ∈ bnAllNodes st ∨ tn.styles.bold = false
    unfold bnStart
    dsimp only
    split_ifs with h1 h2 h3 h4 h5 h6 h7
    · exact ⟨by rw [flushBlock_currentStyles]; exact hb, Hfb⟩
    · exact ⟨by rw [flushBlock_currentStyles]; exact hb, Hfb⟩
    · rw [ht] at h3; exact absurd h3 (by simp)
    · refine ⟨?_, Hft⟩
      show (flushText st).currentStyles.bold = false
      rw [flushText_currentStyles]; exact hb
    · refine ⟨?_, Hft⟩
      show (flushText st).currentStyles.bold = false
      rw [flushText_currentStyles]; exact hb
    · refine ⟨?_, ?_⟩
      · show (flushBlock gen st).currentStyles.bold = false
        rw [flushBlock_currentStyles]; exact hb
      · intro tn h
        refine Hfb tn ?_
        unfold bnAllNodes at h ⊢
        simp only [optContent, createBlock, List.mem_append,
          List.not_mem_nil, or_false] at h ⊢
        tauto
    · refine ⟨?_, Hft⟩
      show (flushText st).currentStyles.bold = false
      rw [flushText_currentStyles]; exact hb
    · exact ⟨hb, fun tn h => Or.inl h⟩
  | endTag t =>
    show (bnEnd gen t st).currentStyles.bold = false ∧
      ∀ tn ∈ bnAllNodes (bnEnd gen t st),
        tn ∈ bnAllNodes st ∨ tn.styles.bold = false
    unfold bnEnd
    dsimp only
    split_ifs with h1 h2 h3 h4 h5 h6
    · exact ⟨by rw [flushBlock_currentStyles]; exact hb, Hfb⟩
    · exact ⟨rfl, Hft⟩
    · refine ⟨?_, Hft⟩
      show (flushText st).currentStyles.bold = false
      rw [flushText_currentStyles]; exact hb
    · refine ⟨?_, Hft⟩
      show (flushText st).currentStyles.bold = false
      rw [flushText_currentStyles]; exact hb
    · rcases hcb : (flushText st).currentBlock with _ | b
      · exact ⟨by
          show (flushText st).currentStyles.bold = false
          rw [flushText_currentStyles]; exact hb, Hft⟩
      · refine ⟨by
          show (flushText st).currentStyles.bold = false
          rw [flushText_currentStyles]; exact hb, ?_⟩
        intro tn h
        refine Hft tn ?_
        have h' : tn ∈ bnAllNodes
            { flushText st with
              blocks := (flushText st).blocks ++
                [{ b with content := (flushText st).currentContent }],
              currentBlock := Option.none,
              currentContent := [] } := h
        unfold bnAllNodes at h' ⊢
        rw [hcb]
        simp only [optContent, List.map_append, List.join_append,
          List.mem_append, List.map_cons, List.map_nil, List.join_cons,
          List.join_nil, List.append_nil, List.not_mem_nil, or_false] at h' ⊢
        tauto
    · refine ⟨?_, Hft⟩
      show (flushText st).currentStyles.bold = false
      rw [flushText_currentStyles]; exact hb
    · exact ⟨hb, fun tn h => Or.inl h⟩

/-- Running the block converter over a stream with no bold-opening event,
from a state with bold inactive, keeps bold inactive and only creates
non-bold text nodes. -/
theorem bnRun_bold_inv (gen : Nat → String) (evs : List Event) :
    ∀ st : BNState, st.currentStyles.bold = false →
      (∀ e ∈ evs, boldStartEv e = false) →
      (bnRun gen st evs).currentStyles.bold = false ∧
        ∀ tn ∈ bnAllNodes (bnRun gen st evs),
          tn ∈ bnAllNodes st ∨ tn.styles.bold = false := by
  induction evs with
  | nil => exact fun st hb _ => ⟨hb, fun tn h => Or.inl h⟩
  | cons e evs ih =>
    intro st hb hes
    have hstep := bnStep_bold_inv gen e st hb (hes e (List.mem_cons_self e evs))
    have hrest := ih (bnStep gen st e) hstep.1
      (fun e' he' => hes e' (List.mem_cons_of_mem e he'))
    refine ⟨hrest.1, fun tn h => ?_⟩
    rcases hrest.2 tn h with h1 | h1
    · exact hstep.2 tn h1
    · exact Or.inr h1

/-! Erasing the generated block ids commutes with every step of the block
converter: running with any id supply and then erasing the ids is the same
as running with the constant empty supply `zeroGen`. -/

theorem eraseBN_flushText (st : BNState) :
    eraseBN (flushText st) = flushText (eraseBN st) := by
  obtain ⟨bs, cb, cc, cs, pt, ni⟩ := st
  unfold flushText eraseBN
  dsimp only
  split_ifs <;> rfl

theorem eraseBN_flushBlock (gen : Nat → String) (st : BNState) :
    eraseBN (flushBlock gen st) = flushBlock zeroGen (eraseBN st) := by
  unfold flushBlock
  dsimp only
  rw [← eraseBN_flushText]
  generalize flushText st = Y
  obtain ⟨bs, cb, cc, cs, pt, ni⟩ := Y
  dsimp only [eraseBN]
  split_ifs with h
  · rfl
  · simp [List.map_append, eraseBlockId, createBlock, zeroGen]

theorem eraseBN_bnStart (gen : Nat → String) (t : String)
    (a : List (String × String)) (st : BNState) :
    eraseBN (bnStart gen t a st) = bnStart zeroGen t a (eraseBN st) := by
  unfold bnStart
  dsimp only
  split_ifs with h1 h2 h3 h4 h5 h6 h7
  · exact eraseBN_flushBlock gen st
  · exact eraseBN_flushBlock gen st
  · rw [← eraseBN_flushText]; rfl
  · rw [← eraseBN_flushText]; rfl
  · rw [← eraseBN_flushText]; rfl
  · rw [← eraseBN_flushBlock]; rfl
  · rw [← eraseBN_flushText]; rfl
  · rfl

theorem eraseBN_bnEnd (gen : Nat → String) (t : String) (st : BNState) :
    eraseBN (bnEnd gen t st) = bnEnd zeroGen t (eraseBN st) := by
  unfold bnEnd
  dsimp only
  split_ifs with h1 h2 h3 h4 h5 h6
  · exact eraseBN_flushBlock gen st
  · rw [← eraseBN_flushText]; rfl
  · rw [← eraseBN_flushText]; rfl
  · rw [← eraseBN_flushText]; rfl
  · rw [← eraseBN_flushText]
    generalize flushText st = Y
    have hY : (eraseBN Y).currentBlock = Y.currentBlock.map eraseBlockId := rfl
    rw [hY]
    rcases hcb : Y.currentBlock with _ | b
    · rfl
    · dsimp only [Option.map_some']
      obtain ⟨ybs, ycb, ycc, ycs, ypt, yni⟩ := Y
      simp [eraseBN, eraseBlockId, List.map_append]
  · rw [← eraseBN_flushText]; rfl
  · rfl

theorem eraseBN_bnStep (gen : Nat → String) (e : Event) (st : BNState) :
    eraseBN (bnStep gen st e) = bnStep zeroGen (eraseBN st) e := by
  cases e with
  | startTag t a => exact eraseBN_bnStart gen t a st
  | endTag t => exact eraseBN_bnEnd gen t st
  | textData d => rfl

theorem eraseBN_bnRun (gen : Nat → String) (evs : List Event) :
    ∀ st : BNState, eraseBN (bnRun gen st evs) = bnRun zeroGen (eraseBN st) evs := by
  induction evs with
  | nil => intro st; rfl
  | cons e evs ih =>
    intro st
    show eraseBN (bnRun gen (bnStep gen st e) evs) = _
    rw [ih, eraseBN_bnStep]
    rfl

theorem map_erase_getBlocknote (gen : Nat → String) (st : BNState) :
    (getBlocknote gen st).map eraseBlockId = getBlocknote zeroGen (eraseBN st) := by
  unfold getBlocknote
  rw [← eraseBN_flushBlock]
  rfl

theorem map_erase_blocknoteFallback (gen : Nat → String) (html : String) :
    (blocknoteFallback gen html).map eraseBlockId = blocknoteFallback zeroGen html := by
  unfold blocknoteFallback
  dsimp only
  split_ifs with h
  · rfl
  · rfl

theorem map_erase_html_to_blocknote (gen : Nat → String) (html : String) :
    (html_to_blocknote gen html).map eraseBlockId = html_to_blocknote zeroGen html := by
  unfold html_to_blocknote
  split
  · rfl
  · show ((getBlocknote gen (bnRun gen bnEmpty (tokenize html))).filter
        (fun b => !b.content.isEmpty)).map eraseBlockId =
      (getBlocknote zeroGen (bnRun zeroGen bnEmpty (tokenize html))).filter
        (fun b => !b.content.isEmpty)
    have hrun : bnRun zeroGen bnEmpty (tokenize html) =
        eraseBN (bnRun gen bnEmpty (tokenize html)) := by
      rw [eraseBN_bnRun]
      rfl
    rw [hrun, ← map_erase_getBlocknote]
    generalize getBlocknote gen (bnRun gen bnEmpty (tokenize html)) = L
    rw [List.filter_map]
    rfl

theorem count_words_erase (bs : List Block) :
    count_words (bs.map eraseBlockId) = count_words bs := by
  unfold count_words
  rw [List.foldr_map]
  rfl

theorem eraseDoc_convert_document (gen : Nat → String) (doc : S1Document)
    (order : Nat) :
    eraseDocIds (convert_document gen doc order) = convert_document zeroGen doc order := by
  unfold convert_document eraseDocIds
  dsimp only
  rw [map_erase_html_to_blocknote gen]
  rw [show count_words (html_to_blocknote gen (doc.content.getD "")) =
      count_words (html_to_blocknote zeroGen (doc.content.getD "")) from by
    rw [← map_erase_html_to_blocknote gen, count_words_erase]]

theorem map_insertStable (f : α → β) (le : α → α → Bool) (le' : β → β → Bool)
    (hle : ∀ a b, le' (f a) (f b) = le a b) (x : α) :
    ∀ l : List α, (insertStable le x l).map f = insertStable le' (f x) (l.map f) := by
  intro l
  induction l with
  | nil => rfl
  | cons y ys ih =>
    show (if le y x then y :: insertStable le x ys else x :: y :: ys).map f =
      (if le' (f y) (f x) then f y :: insertStable le' (f x) (ys.map f)
        else f x :: f y :: ys.map f)
    rw [hle]
    split_ifs with h
    · simp [ih]
    · simp

theorem map_stableSort (f : α → β) (le : α → α → Bool) (le' : β → β → Bool)
    (hle : ∀ a b, le' (f a) (f b) = le a b) (l : List α) :
    ∀ acc : List α,
      (l.foldl (fun acc x => insertStable le x acc) acc).map f =
        (l.map f).foldl (fun acc x => insertStable le' x acc) (acc.map f) := by
  induction l with
  | nil => intro acc; rfl
  | cons y ys ih =>
    intro acc
    show ((ys.foldl (fun acc x => insertStable le x acc)
      (insertStable le y acc))).map f = _
    rw [ih (insertStable le y acc), map_insertStable f le le' hle]
    rfl

theorem eraseFolder_convert_folder (gen : Nat → String) (folder : S1Folder)
    (docsById : List (String × S1Document)) (tdi : List String) (order : Nat) :
    Option.map eraseFolderIds (convert_folder gen folder docsById tdi order) =
      convert_folder zeroGen folder docsById tdi order := by
  unfold convert_folder
  dsimp only
  have hdocs : folder.documentIds.filterMap (fun docId =>
      if tdi.contains docId then Option.none
      else
        match lookupDoc docsById docId with
        | Option.none => Option.none
        | Option.some doc =>
          if statusActive doc.status then Option.some (convert_document zeroGen doc 0)
          else Option.none) =
      (folder.documentIds.filterMap (fun docId =>
        if tdi.contains docId then Option.none
        else
          match lookupDoc docsById docId with
          | Option.none => Option.none
          | Option.some doc =>
            if statusActive doc.status then Option.some (convert_document gen doc 0)
            else Option.none)).map eraseDocIds := by
    rw [List.map_filterMap]
    apply List.filterMap_congr
    intro docId _
    split_ifs with h1
    · rfl
    · rcases lookupDoc docsById docId with _ | doc
      · rfl
      · dsimp only
        split_ifs with h2
        · rw [Option.map_some', eraseDoc_convert_document]
        · rfl
  rw [hdocs]
  generalize (folder.documentIds.filterMap (fun docId =>
    if tdi.contains docId then Option.none
    else
      match lookupDoc docsById docId with
      | Option.none => Option.none
      | Option.some doc =>
        if statusActive doc.status then Option.some (convert_document gen doc 0)
        else Option.none)) = dg
  by_cases hd : dg = []
  · subst hd
    rfl
  · rw [if_neg hd, if_neg (by simpa using hd)]
    rw [Option.map_some']
    have hsort : stableSort docTitleLE (dg.map eraseDocIds) =
        (stableSort docTitleLE dg).map eraseDocIds := by
      unfold stableSort
      rw [map_stableSort eraseDocIds docTitleLE docTitleLE (fun a b => rfl) dg []]
      rfl
    rw [hsort]
    show Option.some (eraseFolderIds _) = Option.some _
    congr 1
    unfold eraseFolderIds
    dsimp only
    congr 1
    generalize stableSort docTitleLE dg = sorted
    rw [List.enum_map, List.map_map, List.map_map]
    rfl

theorem erase_s2FolderStep (gen : Nat → String)
    (docsById : List (String × S1Document)) (tdi tfi : List String)
    (acc : List S2Folder × Nat) (folder : S1Folder) :
    ((s2FolderStep gen docsById tdi tfi acc folder).1.map eraseFolderIds,
      (s2FolderStep gen docsById tdi tfi acc folder).2) =
      s2FolderStep zeroGen docsById tdi tfi (acc.1.map eraseFolderIds, acc.2) folder := by
  unfold s2FolderStep
  dsimp only
  split_ifs with h1 h2
  · rfl
  · rfl
  · have hcf := eraseFolder_convert_folder gen folder docsById tdi acc.2
    rcases hc : convert_folder gen folder docsById tdi acc.2 with _ | cf
    · rw [hc] at hcf
      rw [← hcf]
      rfl
    · rw [hc] at hcf
      rw [← hcf]
      simp [List.map_append]

theorem erase_s2Fold (gen : Nat → String)
    (docsById : List (String × S1Document)) (tdi tfi : List String)
    (folders : List S1Folder) :
    ∀ acc : List S2Folder × Nat,
      ((folders.foldl (s2FolderStep gen docsById tdi tfi) acc).1.map eraseFolderIds,
        (folders.foldl (s2FolderStep gen docsById tdi tfi) acc).2) =
        folders.foldl (s2FolderStep zeroGen docsById tdi tfi)
          (acc.1.map eraseFolderIds, acc.2) := by
  induction folders with
  | nil => intro acc; rfl
  | cons f fs ih =>
    intro acc
    rw [List.foldl_cons, List.foldl_cons]
    rw [ih (s2FolderStep gen docsById tdi tfi acc f),
      erase_s2FolderStep gen docsById tdi tfi acc f]

theorem erase_convert_schema1_to_schema2 (gen : Nat → String) (data : S1Data) :
    eraseProjectIds (convert_schema1_to_schema2 gen data) =
      convert_schema1_to_schema2 zeroGen data := by
  unfold convert_schema1_to_schema2 eraseProjectIds
  dsimp only
  have hfold := erase_s2Fold gen data.documentsById data.trash.documentIds
    data.trash.folderIds
    (stableSort (fun a b => decide ((a.sort.getD 0) ≤ (b.sort.getD 0))) data.folders)
    ([], 0)
  have h1 := congrArg Prod.fst hfold
  dsimp only at h1
  simp only [List.map_nil] at h1
  rw [← h1]
  have hlen : ∀ l : List S2Folder,
      (l.map eraseFolderIds).map (fun f => f.documents.length) =
        l.map (fun f => f.documents.length) := by
    intro l
    rw [List.map_map]
    apply List.map_congr_left
    intro f _
    simp [eraseFolderIds]
  rw [hlen]

theorem dictGet_of_no_key (attrs : List (String × String)) (key dflt : String)
    (h : ∀ p ∈ attrs, p.1 ≠ key) : dictGet attrs key dflt = dflt := by
  unfold dictGet
  have hf : attrs.reverse.find? (fun p => p.1 == key) = Option.none := by
    apply List.find?_eq_none.mpr
    intro p hp
    simp only [beq_iff_eq]
    exact h p (List.mem_reverse.mp hp)
  rw [hf]

/-! ### Claim theorems -/

/-- Claim C9: the core transforms are deterministic modulo fresh
identifiers — the randomly generated block ids (modelled by the id supply
`gen`) are the only value generated fresh per conversion, so two runs of
the structured conversion with any two id supplies agree after erasing the
block id fields (the markdown conversion takes no id supply at all and is a
pure function of its input). -/
theorem C9_deterministic_modulo_ids :
    (∀ (g1 g2 : Nat → String) (data : S1Data),
        eraseProjectIds (convert_schema1_to_schema2 g1 data) =
          eraseProjectIds (convert_schema1_to_schema2 g2 data)) ∧
    (∀ (g1 g2 : Nat → String) (html : String),
        (html_to_blocknote g1 html).map eraseBlockId =
          (html_to_blocknote g2 html).map eraseBlockId) :=
  ⟨fun g1 g2 data => (erase_convert_schema1_to_schema2 g1 data).trans
      (erase_convert_schema1_to_schema2 g2 data).symm,
   fun g1 g2 html => (map_erase_html_to_blocknote g1 html).trans
      (map_erase_html_to_blocknote g2 html).symm⟩

/-- Claim C10: an `<a>` start tag with no `href` attribute defaults the link
target to the empty string in both converters — the structured converter
records a link style valued `""`, and the markdown emitter still emits `[`
on open and `](`&nbsp;`)` with the remembered (empty) href on close instead
of dropping the markup. -/
theorem C10_missing_href_defaults_empty :
    (∀ (g : Nat → String) (st : BNState) (attrs : List (String × String)),
        (∀ p ∈ attrs, p.1 ≠ "href") →
        (bnStart g "a" attrs st).currentStyles.link = Option.some "") ∧
    (∀ (st : MDState) (attrs : List (String × String)),
        (∀ p ∈ attrs, p.1 ≠ "href") →
        mdStart "a" attrs st =
          { st with result := st.result ++ ["["],
                    currentText := st.currentText ++ [("link", "")] }) ∧
    (∀ (st : MDState) (href : String),
        st.currentText.getLast? = Option.some ("link", href) →
        mdEnd "a" st =
          { st with currentText := st.currentText.dropLast,
                    result := st.result ++ ["](" ++ href ++ ")"] }) ∧
    (∀ g : Nat → String,
        html_to_blocknote g "<p><a>x</a></p>" =
          [{ id := g 0, type := "paragraph", props := defaultProps,
             content := [⟨"x", ⟨false, false, false, Option.some ""⟩⟩] }]) ∧
    html_to_markdown "<a>x</a>" = "[x]()" := by
  refine ⟨?_, ?_, ?_, fun g => rfl, rfl⟩
  · intro g st attrs h
    show Option.some (dictGet attrs "href" "") = Option.some ""
    rw [dictGet_of_no_key attrs "href" "" h]
  · intro st attrs h
    show { st with result := st.result ++ ["["],
                   currentText := st.currentText ++ [("link", dictGet attrs "href" "")] } = _
    rw [dictGet_of_no_key attrs "href" "" h]
  · intro st href h
    simp only [mdEnd, h]
    rfl

/-- Witness for C10 at concrete inputs: an `<a class="x">` start tag with no
`href` records the empty link target, and closing the link emits `]()`. -/
theorem C10_missing_href_defaults_empty_witness :
    (bnStart zeroGen "a" [("class", "x")] bnEmpty).currentStyles.link =
        Option.some "" ∧
    mdEnd "a" ⟨["[", "x"], [("link", "")], false, Option.none, 0⟩ =
      ⟨["[", "x", "]()"], [], false, Option.none, 0⟩ :=
  ⟨C10_missing_href_defaults_empty.1 zeroGen bnEmpty [("class", "x")] (by decide),
   C10_missing_href_defaults_empty.2.2.1
     ⟨["[", "x"], [("link", "")], false, Option.none, 0⟩ "" rfl⟩

/-- Claim C1: conversions never fail (both are total functions in this
embedding); on a tokenizer fault the structured fallback yields exactly one
paragraph holding the tag-stripped trimmed text when any non-whitespace
text survives and the empty sequence otherwise, the markdown fault branch
returns the tag-stripped text verbatim, and on the unterminated-tag input
`<p>text` both conversions (and both fallbacks) produce a result containing
the literal text `text`. -/
theorem C1_malformed_markup_fallback :
    (∀ (g : Nat → String) (html : String),
        blocknoteFallback g html =
          if pyStrip (stripTags html) = "" then []
          else [{ id := g 0, type := "paragraph", props := defaultProps,
                  content := [⟨pyStrip (stripTags html), noStyles⟩] }]) ∧
    (∀ g : Nat → String,
        html_to_blocknote g "<p>text" =
          [{ id := g 0, type := "paragraph", props := defaultProps,
             content := [⟨"text", noStyles⟩] }]) ∧
    html_to_markdown "<p>text" = "text" ∧
    (∀ g : Nat → String,
        blocknoteFallback g "<p>text" =
          [{ id := g 0, type := "paragraph", props := defaultProps,
             content := [⟨"text", noStyles⟩] }]) ∧
    stripTags "<p>text" = "text" := by
  refine ⟨?_, fun g => rfl, rfl, fun g => rfl, rfl⟩
  intro g html
  unfold blocknoteFallback
  dsimp only
  by_cases h : pyStrip (stripTags html) = ""
  · simp [h]
  · simp [h]

/-- Claim C4: every block in the output of `html_to_blocknote` has a
non-empty content sequence; a heading block is appended unconditionally
when its end tag is processed, even with no text runs, and the final filter
discards every block whose content is empty (witnessed on `<h2></h2>`,
whose internal heading block is dropped from the returned list). -/
theorem C4_no_empty_blocks :
    (∀ (g : Nat → String) (html : String) (b : Block),
        b ∈ html_to_blocknote g html → b.content ≠ []) ∧
    (∀ (g : Nat → String) (tag : String) (st : BNState) (hb : Block),
        tag ∈ (["h1", "h2", "h3", "h4", "h5", "h6"] : List String) →
        st.currentBlock = Option.some hb →
        bnEnd g tag st =
          { flushText st with
            blocks := (flushText st).blocks ++
              [{ hb with content := (flushText st).currentContent }],
            currentBlock := Option.none,
            currentContent := [] }) ∧
    (∀ g : Nat → String,
        getBlocknote g (bnRun g bnEmpty (tokenize "<h2></h2>")) =
          [{ id := g 0, type := "heading",
             props := { defaultProps with level := Option.some 2 },
             content := [] }] ∧
        html_to_blocknote g "<h2></h2>" = []) := by
  refine ⟨?_, ?_, fun g => ⟨rfl, rfl⟩⟩
  · intro g html b hb
    unfold html_to_blocknote at hb
    split at hb
    · simp at hb
    · simp only [tokenizeResult] at hb
      rw [List.mem_filter] at hb
      simpa using hb.2
  · intro g tag st hb htag h
    have h2 : (flushText st).currentBlock = Option.some hb := by
      rw [flushText_currentBlock]; exact h
    simp only [List.mem_cons, List.not_mem_nil, or_false] at htag
    rcases htag with rfl | rfl | rfl | rfl | rfl | rfl <;>
      · simp only [bnEnd, h2]
        rfl

/-- Witness for C4 at a concrete state: closing `</h3>` appends the pending
(empty) heading block, and the converter run on `<p>x</p>` yields only
blocks with non-empty content. -/
theorem C4_no_empty_blocks_witness :
    ([⟨"x", noStyles⟩] : List TextNode) ≠ [] ∧
    bnEnd zeroGen "h3"
        ⟨[], Option.some (createBlock zeroGen 0 "heading"), [], noStyles, [], 1⟩ =
      ⟨[{ createBlock zeroGen 0 "heading" with content := [] }],
        Option.none, [], noStyles, [], 1⟩ :=
  ⟨C4_no_empty_blocks.1 zeroGen "<p>x</p>"
     ⟨"", "paragraph", defaultProps, [⟨"x", noStyles⟩]⟩ (by decide),
   C4_no_empty_blocks.2.1 zeroGen "h3"
     ⟨[], Option.some (createBlock zeroGen 0 "heading"), [], noStyles, [], 1⟩
     (createBlock zeroGen 0 "heading") (by decide) rfl⟩

set_option maxHeartbeats 1000000 in
/-- Claim C2: closing a style tag removes the attribute from the active
style set unconditionally (no per-attribute counter or stack), so after a
`</strong>` every text run emitted before the next `<strong>`/`<b>` is not
marked bold — even when two nested `<strong>` tags were opened and only one
closed, as the concrete run on
`<p><strong><strong>x</strong>y</strong></p>` shows. -/
theorem C2_end_tag_clears_style :
    (∀ (g : Nat → String) (st : BNState),
        (bnEnd g "strong" st).currentStyles.bold = false ∧
        (bnEnd g "b" st).currentStyles.bold = false ∧
        (bnEnd g "em" st).currentStyles.italic = false ∧
        (bnEnd g "i" st).currentStyles.italic = false ∧
        (bnEnd g "u" st).currentStyles.underline = false ∧
        (bnEnd g "a" st).currentStyles.link = Option.none) ∧
    (∀ (g : Nat → String) (st : BNState) (evs : List Event),
        (∀ e ∈ evs, boldStartEv e = false) →
        ∀ tn ∈ bnAllNodes (bnRun g (bnEnd g "strong" st) evs),
          tn ∈ bnAllNodes (bnEnd g "strong" st) ∨ tn.styles.bold = false) ∧
    (∀ g : Nat → String,
        html_to_blocknote g "<p><strong><strong>x</strong>y</strong></p>" =
          [{ id := g 0, type := "paragraph", props := defaultProps,
             content := [⟨"x", ⟨true, false, false, Option.none⟩⟩,
                         ⟨"y", noStyles⟩] }]) := by
  refine ⟨fun g st => ⟨rfl, rfl, rfl, rfl, rfl, rfl⟩, ?_, fun g => rfl⟩
  intro g st evs hes
  exact (bnRun_bold_inv g evs (bnEnd g "strong" st) rfl hes).2

/-- Witness for C2 at a concrete mid-conversion state with bold active:
after `</strong>` the text `y` flushed by `</p>` is not bold. -/
theorem C2_end_tag_clears_style_witness :
    (⟨"y", noStyles⟩ : TextNode) ∈
        bnAllNodes (bnEnd zeroGen "strong"
          ⟨[], Option.none, [⟨"x", ⟨true, false, false, Option.none⟩⟩],
            ⟨true, false, false, Option.none⟩, [], 0⟩) ∨
      (⟨"y", noStyles⟩ : TextNode).styles.bold = false :=
  C2_end_tag_clears_style.2.1 zeroGen
    ⟨[], Option.none, [⟨"x", ⟨true, false, false, Option.none⟩⟩],
      ⟨true, false, false, Option.none⟩, [], 0⟩
    [Event.textData "y", Event.endTag "p"] (by decide)
    ⟨"y", noStyles⟩ (by decide)

theorem zipDocStep_all_trashed (docsById : List (String × S1Document))
    (trashDocIds : List String) (ids : List String) :
    ∀ (l0 : List S1Document) (s0 : ZipStats),
      (∀ d ∈ ids, trashDocIds.contains d = true) →
      (ids.foldl (zipDocStep docsById trashDocIds) (l0, s0)).1 = l0 := by
  induction ids with
  | nil => intro l0 s0 _; rfl
  | cons d ds ih =>
    intro l0 s0 h
    have hd : trashDocIds.contains d = true := h d (List.mem_cons_self d ds)
    show (ds.foldl (zipDocStep docsById trashDocIds)
      (zipDocStep docsById trashDocIds (l0, s0) d)).1 = l0
    have hstep : zipDocStep docsById trashDocIds (l0, s0) d =
        (l0, { s0 with documents_skipped_trash := s0.documents_skipped_trash + 1 }) := by
      unfold zipDocStep
      rw [if_pos hd]
    rw [hstep]
    exact ih l0 _ (fun d' hd' => h d' (List.mem_cons_of_mem d hd'))

theorem zipDocStep_foldl_filterMap (docsById : List (String × S1Document))
    (tdi : List String) (ids : List String) :
    ∀ (l0 : List S1Document) (s0 : ZipStats),
      (ids.foldl (zipDocStep docsById tdi) (l0, s0)).1 =
        l0 ++ ids.filterMap (fun docId =>
          if tdi.contains docId then Option.none
          else
            match lookupDoc docsById docId with
            | Option.none => Option.none
            | Option.some doc =>
              if statusActive doc.status then Option.some doc
              else Option.none) := by
  induction ids with
  | nil => intro l0 s0; simp
  | cons d ds ih =>
    intro l0 s0
    show (ds.foldl (zipDocStep docsById tdi)
      (zipDocStep docsById tdi (l0, s0) d)).1 = _
    by_cases h1 : tdi.contains d = true
    · have hstep : zipDocStep docsById tdi (l0, s0) d =
          (l0, { s0 with
            documents_skipped_trash := s0.documents_skipped_trash + 1 }) := by
        unfold zipDocStep
        rw [if_pos h1]
      have h1' : d ∈ tdi := by simpa using h1
      rw [hstep, ih]
      simp [List.filterMap_cons, h1']
    · have h1' : d ∉ tdi := by simpa using h1
      rcases hl : lookupDoc docsById d with _ | doc
      · have hstep : zipDocStep docsById tdi (l0, s0) d =
            (l0, { s0 with
              documents_skipped_missing := s0.documents_skipped_missing + 1 }) := by
          unfold zipDocStep
          rw [if_neg h1, hl]
        rw [hstep, ih]
        simp [List.filterMap_cons, h1', hl]
      · by_cases h2 : statusActive doc.status = true
        · have hstep : zipDocStep docsById tdi (l0, s0) d = (l0 ++ [doc], s0) := by
            unfold zipDocStep
            rw [if_neg h1, hl]
            dsimp only
            rw [if_pos h2]
          rw [hstep, ih]
          simp [List.filterMap_cons, h1', hl, h2]
        · have hstep : zipDocStep docsById tdi (l0, s0) d = (l0, s0) := by
            unfold zipDocStep
            rw [if_neg h1, hl]
            dsimp only
            rw [if_neg h2]
          rw [hstep, ih]
          simp [List.filterMap_cons, h1', hl, h2]

theorem convert_folder_dense_orders (g : Nat → String) (folder : S1Folder)
    (docsById : List (String × S1Document)) (tdi : List String) (order : Nat)
    (f : S2Folder) (h : convert_folder g folder docsById tdi order = Option.some f) :
    f.documents.map S2Document.order = List.range f.documents.length := by
  unfold convert_folder at h
  dsimp only at h
  split at h
  · exact absurd h (by simp)
  · rw [Option.some.injEq] at h
    subst h
    dsimp only
    rw [List.map_map, List.length_map]
    have : (S2Document.order ∘ fun p : Nat × S2Document => { p.2 with order := p.1 }) =
        Prod.fst := rfl
    rw [this, List.enum_map_fst, List.enum_length]

/-- Claim C5: an entity whose id is in the corresponding trash set is
excluded from both outputs unconditionally, regardless of its own status
field (the trash test precedes every status test), and a folder all of
whose document references are trash-filtered yields no folder in the
structured output and no directory or file entry in the archive. -/
theorem C5_trash_exclusion :
    (∀ (g : Nat → String) (docsById : List (String × S1Document))
        (tdi tfi : List String) (acc : List S2Folder × Nat) (folder : S1Folder),
        tfi.contains (folder.id.getD "") = true →
        s2FolderStep g docsById tdi tfi acc folder = acc) ∧
    (∀ (docsById : List (String × S1Document)) (tdi tfi : List String)
        (acc : List ZipEntry × ZipStats) (folder : S1Folder),
        tfi.contains (folder.id.getD "") = true →
        zipFolderStep docsById tdi tfi acc folder = acc) ∧
    (∀ (docsById : List (String × S1Document)) (tdi : List String)
        (acc : List S1Document × ZipStats) (docId : String),
        tdi.contains docId = true →
        zipDocStep docsById tdi acc docId =
          (acc.1, { acc.2 with
            documents_skipped_trash := acc.2.documents_skipped_trash + 1 })) ∧
    (∀ (g : Nat → String) (folder : S1Folder)
        (docsById : List (String × S1Document)) (tdi : List String) (order : Nat),
        (∀ d ∈ folder.documentIds, tdi.contains d = true) →
        convert_folder g folder docsById tdi order = Option.none) ∧
    (∀ (docsById : List (String × S1Document)) (tdi tfi : List String)
        (acc : List ZipEntry × ZipStats) (folder : S1Folder),
        (∀ d ∈ folder.documentIds, tdi.contains d = true) →
        (zipFolderStep docsById tdi tfi acc folder).1 = acc.1) := by
  refine ⟨?_, ?_, ?_, ?_, ?_⟩
  · intro g docsById tdi tfi acc folder h
    unfold s2FolderStep
    rw [if_pos h]
  · intro docsById tdi tfi acc folder h
    unfold zipFolderStep
    rw [if_pos h]
  · intro docsById tdi acc docId h
    unfold zipDocStep
    rw [if_pos h]
  · intro g folder docsById tdi order h
    unfold convert_folder
    dsimp only
    have hnil : folder.documentIds.filterMap (fun docId =>
        if tdi.contains docId then Option.none
        else
          match lookupDoc docsById docId with
          | Option.none => Option.none
          | Option.some doc =>
            if statusActive doc.status then
              Option.some (convert_document g doc 0)
            else Option.none) = [] := by
      rw [List.filterMap_eq_nil]
      intro d hd
      rw [if_pos (h d hd)]
    rw [hnil]
    rfl
  · intro docsById tdi tfi acc folder h
    unfold zipFolderStep
    split_ifs with h1 h2
    · rfl
    · rfl
    · have hfold := zipDocStep_all_trashed docsById tdi folder.documentIds
        [] acc.2 h
      dsimp only
      rw [if_pos hfold]

/-- Witness for C5 at a concrete input: a folder whose id `f1` is trashed
is skipped even though its status is `active`, and a folder whose only
document id `d1` is trashed produces no structured folder and no archive
entries. -/
theorem C5_trash_exclusion_witness :
    s2FolderStep zeroGen [] [] ["f1"] ([], 0)
        ⟨Option.some "f1", Option.some "Stuff", Option.some 0,
          Option.some "active", ["d1"]⟩ = ([], 0) ∧
    convert_folder zeroGen
        ⟨Option.some "f2", Option.some "Stuff", Option.some 0,
          Option.some "active", ["d1"]⟩
        [("d1", ⟨Option.some "Chapter 1", Option.some "<p>x</p>",
          Option.none, Option.none⟩)] ["d1"] 0 = Option.none ∧
    (zipFolderStep
        [("d1", ⟨Option.some "Chapter 1", Option.some "<p>x</p>",
          Option.none, Option.none⟩)] ["d1"] []
        ([], zipStatsZero)
        ⟨Option.some "f2", Option.some "Stuff", Option.some 0,
          Option.some "active", ["d1"]⟩).1 = [] :=
  ⟨C5_trash_exclusion.1 zeroGen [] [] ["f1"] ([], 0)
      ⟨Option.some "f1", Option.some "Stuff", Option.some 0,
        Option.some "active", ["d1"]⟩ (by decide),
   C5_trash_exclusion.2.2.2.1 zeroGen
      ⟨Option.some "f2", Option.some "Stuff", Option.some 0,
        Option.some "active", ["d1"]⟩
      [("d1", ⟨Option.some "Chapter 1", Option.some "<p>x</p>",
        Option.none, Option.none⟩)] ["d1"] 0 (by decide),
   C5_trash_exclusion.2.2.2.2
      [("d1", ⟨Option.some "Chapter 1", Option.some "<p>x</p>",
        Option.none, Option.none⟩)] ["d1"] []
      ([], zipStatsZero)
      ⟨Option.some "f2", Option.some "Stuff", Option.some 0,
        Option.some "active", ["d1"]⟩ (by decide)⟩

/-- Claim C3: `html_to_markdown` on the input
`<h2>Title</h2><p>A <strong>bold</strong> word.</p>` returns exactly
`## Title\n\nA **bold** word.` — the heading / bold / paragraph-separator
rules, followed by the post-process that collapses newline runs of length 3
or more to exactly 2 and trims surrounding whitespace. -/
theorem C3_markdown_round_trip :
    html_to_markdown "<h2>Title</h2><p>A <strong>bold</strong> word.</p>" =
      "## Title\n\nA **bold** word." := by
  rfl

/-- Claim C7: an ordered-list item is emitted as `{n}. ` with a 1-based
counter incremented per item and reset to 0 at `<ol>`, an unordered-list
item is emitted as `- `, list close appends one newline, and on
`<ol><li>a</li><li>b</li></ol>` the conversion yields `1. a\n2. b\n` up to
the surrounding trim. -/
theorem C7_list_markers :
    (∀ (st : MDState) (attrs : List (String × String)),
        st.listType = Option.some "ul" →
        mdStart "li" attrs st = { st with result := st.result ++ ["- "] }) ∧
    (∀ (st : MDState) (attrs : List (String × String)),
        st.listType = Option.some "ol" →
        mdStart "li" attrs st =
          { st with
            listItemCount := st.listItemCount + 1,
            result := st.result ++ [toString (st.listItemCount + 1) ++ ". "] }) ∧
    (∀ (st : MDState) (attrs : List (String × String)),
        mdStart "ol" attrs st =
          { st with inList := true, listType := Option.some "ol",
                    listItemCount := 0 }) ∧
    (∀ st : MDState,
        mdEnd "ol" st =
          { st with inList := false, listType := Option.none,
                    result := st.result ++ ["\n"] }) ∧
    (∀ st : MDState,
        mdEnd "ul" st =
          { st with inList := false, listType := Option.none,
                    result := st.result ++ ["\n"] }) ∧
    html_to_markdown "<ol><li>a</li><li>b</li></ol>" = pyStrip "1. a\n2. b\n" := by
  refine ⟨?_, ?_, ?_, ?_, ?_, ?_⟩
  · intro st attrs h
    obtain ⟨res, ct, il, lt, lc⟩ := st
    dsimp only at h
    subst h
    rfl
  · intro st attrs h
    obtain ⟨res, ct, il, lt, lc⟩ := st
    dsimp only at h
    subst h
    rfl
  · intro st attrs; rfl
  · intro st; rfl
  · intro st; rfl
  · rfl

/-- Claim C6: the structured target re-sorts surviving documents with the
natural-sort comparator on title and assigns dense 0-based order indexes
(`["Chapter 10","Chapter 2","Chapter 1"]` becomes
`["Chapter 1","Chapter 2","Chapter 10"]` with orders `0,1,2`), while the
archive target keeps the original `documentIds` order (the collected
document list is the order-preserving filter of the id list, and the same
fixture emits files in the order `10, 2, 1`). -/
theorem C6_document_ordering :
    (∀ g : Nat → String,
        Option.map (fun f => f.documents.map (fun d => (d.title, d.order)))
            (convert_folder g chaptersFolder chaptersById [] 0) =
          Option.some [("Chapter 1", 0), ("Chapter 2", 1), ("Chapter 10", 2)]) ∧
    (∀ (g : Nat → String) (folder : S1Folder)
        (docsById : List (String × S1Document)) (tdi : List String)
        (order : Nat) (f : S2Folder),
        convert_folder g folder docsById tdi order = Option.some f →
        f.documents.map S2Document.order = List.range f.documents.length) ∧
    (∀ (docsById : List (String × S1Document)) (tdi : List String)
        (ids : List String) (l0 : List S1Document) (s0 : ZipStats),
        (ids.foldl (zipDocStep docsById tdi) (l0, s0)).1 =
          l0 ++ ids.filterMap (fun docId =>
            if tdi.contains docId then Option.none
            else
              match lookupDoc docsById docId with
              | Option.none => Option.none
              | Option.some doc =>
                if statusActive doc.status then Option.some doc
                else Option.none)) ∧
    (zipFolderStep chaptersById [] [] ([], zipStatsZero) chaptersFolder).1.map
        ZipEntry.path =
      ["stuff/", "stuff/Chapter_10.md", "stuff/Chapter_2.md",
       "stuff/Chapter_1.md"] := by
  refine ⟨?_, convert_folder_dense_orders, ?_, ?_⟩
  · intro g
    rfl
  · intro docsById tdi ids l0 s0
    exact zipDocStep_foldl_filterMap docsById tdi ids l0 s0
  · rfl

/-- Witness for C6: the converted chapters fixture carries the dense orders
`[0, 1, 2]`. -/
theorem C6_document_ordering_witness :
    ({ name := "stuff", ftype := "manuscript", order := 0, is_default := false,
       documents :=
         [{ dtype := "manuscript", title := "Chapter 1", content := [],
            synopsis := Option.none, status := "draft", order := 0,
            word_count := 0 },
          { dtype := "manuscript", title := "Chapter 2", content := [],
            synopsis := Option.none, status := "draft", order := 1,
            word_count := 0 },
          { dtype := "manuscript", title := "Chapter 10", content := [],
            synopsis := Option.none, status := "draft", order := 2,
            word_count := 0 }] } : S2Folder).documents.map S2Document.order =
      List.range
        ({ name := "stuff", ftype := "manuscript", order := 0, is_default := false,
           documents :=
             [{ dtype := "manuscript", title := "Chapter 1", content := [],
                synopsis := Option.none, status := "draft", order := 0,
                word_count := 0 },
              { dtype := "manuscript", title := "Chapter 2", content := [],
                synopsis := Option.none, status := "draft", order := 1,
                word_count := 0 },
              { dtype := "manuscript", title := "Chapter 10", content := [],
                synopsis := Option.none, status := "draft", order := 2,
                word_count := 0 }] } : S2Folder).documents.length :=
  C6_document_ordering.2.1 zeroGen chaptersFolder chaptersById [] 0 _ (by rfl)

/-- Claim C8: `number_of_chapters` equals the total surviving document
count across all output folders when that count is positive, and is absent
(`None`) when the count is zero. -/
theorem C8_number_of_chapters :
    ∀ (g : Nat → String) (data : S1Data),
      (convert_schema1_to_schema2 g data).number_of_chapters =
        (if 0 < ((convert_schema1_to_schema2 g data).folders.map
                  (fun f => f.documents.length)).sum
         then Option.some (((convert_schema1_to_schema2 g data).folders.map
                  (fun f => f.documents.length)).sum)
         else Option.none) :=
  fun g data => rfl

/-- Witness for C7 at a concrete state: the second item of an ordered list
is emitted as `2. `. -/
theorem C7_list_markers_witness :
    mdStart "li" [] ⟨["1. a\n"], [], true, Option.some "ol", 1⟩ =
      ⟨["1. a\n", "2. "], [], true, Option.some "ol", 2⟩ :=
  C7_list_markers.2.1 ⟨["1. a\n"], [], true, Option.some "ol", 1⟩ [] rfl

end Raptor


